import Mathlib

/-!
# Verification of `pkg/plugins/golang/v3/init.go` (kubebuilder init subcommand)

Shallow embedding of the `initSubcommand` logic: `checkDir` (precondition
checker over the working directory), `Validate` (ordered checks that resolve
and validate project name and repository), and `PostScaffold` (sequential
external commands).  External effects (the Go toolchain version check,
`os.Getwd`, repository detection, command execution, the filesystem) are
passed in explicitly as an environment, mirroring the Go code's calls.
-/

set_option autoImplicit false

namespace KubebuilderV3Init

/-! ## Filesystem model and `checkDir`

`checkDir` runs `filepath.Walk(".", fn)`.  We model the tree under the
current working directory as a list of named entries.  A node is a plain
file, a directory with its (sorted, as `filepath.Walk` sorts names) entries,
or an entry whose `lstat` fails (`filepath.Walk` then invokes the callback
with that error and a nil `FileInfo`; a directory whose `readDirNames`
fails behaves identically for this callback, which returns any incoming
error before looking at the name). -/

inductive Fs where
  | file : Fs
  | statErr : String → Fs
  | dir : List (String × Fs) → Fs

/-- The error message built by `errors.New` inside `checkDir`'s callback. -/
def dirNotEmptyMsg : String :=
  "only the go.mod and files with the prefix \"(.)\" are allowed before the init"

/-- Go's `strings.HasPrefix`, over the characters of the strings. -/
def hasPrefixGo (s pre : String) : Bool := pre.data.isPrefixOf s.data

/-- The walk callback of `checkDir`: propagate an incoming traversal error
verbatim, otherwise reject any name that is neither `go.mod` nor
dot-prefixed. -/
def walkFn (name : String) (err : Option String) : Except String Unit :=
  match err with
  | some e => Except.error e
  | none =>
    if name ≠ "go.mod" ∧ ¬ hasPrefixGo name "." then Except.error dirNotEmptyMsg
    else Except.ok ()

mutual

/-- `filepath.Walk`'s recursion on a single entry: visit the node itself
(for an `lstat` failure the callback receives the error), then, for a
directory, its entries in order, stopping at the first error. -/
def walkNode : String → Fs → Except String Unit
  | n, Fs.file => walkFn n none
  | _, Fs.statErr e => Except.error e
  | n, Fs.dir es =>
    match walkFn n none with
    | Except.error e => Except.error e
    | Except.ok _ => walkList es

/-- Walk a directory's entries in order, stopping at the first error. -/
def walkList : List (String × Fs) → Except String Unit
  | [] => Except.ok ()
  | (n, f) :: rest =>
    match walkNode n f with
    | Except.error e => Except.error e
    | Except.ok _ => walkList rest

end

/-- `checkDir`: walk the current working directory (whose own name `"."` is
dot-prefixed, hence always accepted) and apply the name policy to every
visited entry. -/
def checkDir (entries : List (String × Fs)) : Except String Unit :=
  walkNode "." (Fs.dir entries)

/-- A name the policy accepts: exactly `go.mod`, or dot-prefixed. -/
def goodNameB (n : String) : Bool :=
  n == "go.mod" || hasPrefixGo n "."

mutual

/-- Every entry recursively visited in this node satisfies the name policy
and no traversal error occurs. -/
def nodeClean : Fs → Bool
  | Fs.file => true
  | Fs.statErr _ => false
  | Fs.dir es => listClean es

/-- Every entry in the list (recursively) is well-named and error-free. -/
def listClean : List (String × Fs) → Bool
  | [] => true
  | (n, f) :: rest => goodNameB n && nodeClean f && listClean rest

end

mutual

/-- No `lstat`-failure node occurs anywhere in this node. -/
def nodeNoErrs : Fs → Bool
  | Fs.file => true
  | Fs.statErr _ => false
  | Fs.dir es => listNoErrs es

/-- No `lstat`-failure node occurs anywhere in the list. -/
def listNoErrs : List (String × Fs) → Bool
  | [] => true
  | (_, f) :: rest => nodeNoErrs f && listNoErrs rest

end

/-! ## Go standard-library helpers used by `Validate` -/

/-- `path/filepath.Base` on a Unix path (no volume names): empty path gives
`"."`; trailing separators are stripped; the part after the last separator
is returned; a path of only separators gives `"/"`. -/
def filepathBase (path : String) : String :=
  if path = "" then "."
  else
    let cs := (path.toList.reverse.dropWhile (· = '/')).reverse
    if cs = [] then "/"
    else String.mk (cs.reverse.takeWhile (· ≠ '/')).reverse

/-- `strings.ToLower`, restricted to ASCII case mapping (the only case the
subsequent DNS-1123 validation can accept). -/
def stringsToLower (s : String) : String := String.mk (s.data.map Char.toLower)

/-! ## DNS-1123 label validation

The validation package is not part of the sources under study, only its
caller is. -/

/-- A lowercase ASCII alphanumeric character. -/
def isLowerAlnum (c : Char) : Bool :=
  ('a' ≤ c && c ≤ 'z') || ('0' ≤ c && c ≤ '9')

/-- Modelled from the spec: the DNS-1123-label predicate of the (missing)
internal validation package — lowercase alphanumerics and hyphens, must
start and end with an alphanumeric, length bounded by 63. -/
def dns1123LabelOk (s : String) : Bool :=
  let cs := s.toList
  decide (0 < cs.length) && decide (cs.length ≤ 63)
    && cs.all (fun c => isLowerAlnum c || c == '-')
    && cs.head?.all isLowerAlnum
    && cs.getLast?.all isLowerAlnum

/-- Modelled from the spec: the message returned by the (missing) internal
validation package when the label predicate fails. -/
def dns1123ErrMsg : String :=
  "a DNS-1123 label must consist of lower case alphanumeric characters or " ++
  "\x27-\x27, and must start and end with an alphanumeric character"

/-- Modelled from the spec: `validation.IsDNS1123Label` (missing from the
sources under study), returning an error exactly when the label predicate
fails. -/
def isDNS1123Label (s : String) : Except String Unit :=
  if dns1123LabelOk s then Except.ok () else Except.error dns1123ErrMsg

/-! ## Configuration and subcommand state -/

/-- The fields of `config.Config` read or written by this file. -/
structure Config where
  ProjectName : String
  Repo : String
  Domain : String
  ComponentConfig : Bool
  Layout : String
deriving DecidableEq, Repr

/-- The `initSubcommand` struct: the injected config plus the subcommand's
own flag fields. -/
structure InitSubcommand where
  config : Config
  commandName : String
  license : String
  owner : String
  fetchDeps : Bool
  skipGoVersionCheck : Bool
deriving DecidableEq, Repr

/-- The external environment `Validate` consults: the result of
`util.ValidateGoVersion`, the working-directory tree walked by `checkDir`,
the result of `os.Getwd`, and the result of `util.FindCurrentRepo`. -/
structure Env where
  goVersionCheck : Except String Unit
  cwd : List (String × Fs)
  getwd : Except String String
  findCurrentRepo : Except String String

/-! ## `Validate`, instrumented with a trace of the checks it performs -/

/-- The checks `Validate` can perform, in source order: the Go toolchain
version check, the `checkDir` precondition, project-name resolution and
validation, and the repository-detection heuristic. -/
inductive VStep where
  | versionCheck : VStep
  | dirCheck : VStep
  | nameCheck : VStep
  | repoDetect : VStep
deriving DecidableEq, Repr

/-- The outcome of a `Validate` call: the subcommand state after the call
(the Go receiver is a pointer, so partial mutations survive an error), the
trace of checks performed, and the returned error, if any. -/
structure VResult where
  state : InitSubcommand
  trace : List VStep
  result : Except String Unit
deriving Repr

/-- Tail of `Validate` from the `p.config.Repo == ""` test on: invoke the
repository-detection heuristic only when the repository is empty, wrapping
its error. -/
def afterName (p : InitSubcommand) (env : Env) (t : List VStep) : VResult :=
  if p.config.Repo = "" then
    let t := t ++ [VStep.repoDetect]
    match env.findCurrentRepo with
    | Except.error e => ⟨p, t, Except.error ("error finding current repository: " ++ e)⟩
    | Except.ok repoPath =>
      ⟨{ p with config := { p.config with Repo := repoPath } }, t, Except.ok ()⟩
  else ⟨p, t, Except.ok ()⟩

/-- The `validation.IsDNS1123Label` call in `Validate`, applied to the
(possibly just resolved) project name carried by `p`. -/
def checkLabel (p : InitSubcommand) (env : Env) (t : List VStep) : VResult :=
  match isDNS1123Label p.config.ProjectName with
  | Except.error e =>
    ⟨p, t, Except.error ("project name (" ++ p.config.ProjectName ++ ") is invalid: " ++ e)⟩
  | Except.ok _ => afterName p env t

/-- `Validate` from project-name resolution on: when the configured project
name is empty, derive it from the lowercase base name of the working
directory (mutating the config before validation). -/
def afterDir (p : InitSubcommand) (env : Env) (t : List VStep) : VResult :=
  let t := t ++ [VStep.nameCheck]
  if p.config.ProjectName = "" then
    match env.getwd with
    | Except.error e => ⟨p, t, Except.error ("error getting current directory: " ++ e)⟩
    | Except.ok dir =>
      checkLabel
        { p with config := { p.config with ProjectName := stringsToLower (filepathBase dir) } }
        env t
  else checkLabel p env t

/-- `Validate` from the `checkDir` call on. -/
def afterVersion (p : InitSubcommand) (env : Env) (t : List VStep) : VResult :=
  let t := t ++ [VStep.dirCheck]
  match checkDir env.cwd with
  | Except.error e => ⟨p, t, Except.error e⟩
  | Except.ok _ => afterDir p env t

/-- `initSubcommand.Validate`, with its trace: toolchain version check
(unless skipped), then `checkDir`, then project-name resolution and
validation, then repository resolution; every failure returns
immediately. -/
def ValidateT (p : InitSubcommand) (env : Env) : VResult :=
  if p.skipGoVersionCheck then afterVersion p env []
  else
    match env.goVersionCheck with
    | Except.error e => ⟨p, [VStep.versionCheck], Except.error e⟩
    | Except.ok _ => afterVersion p env [VStep.versionCheck]

/-- `initSubcommand.Validate` as the Go caller sees it: the state after the
call and the returned error. -/
def Validate (p : InitSubcommand) (env : Env) : InitSubcommand × Except String Unit :=
  let r := ValidateT p env
  (r.state, r.result)

/-! ## `PostScaffold` -/

/-- The environment `PostScaffold` consults: the result of running each
external command (`util.RunCmd`), and the pinned `ControllerRuntimeVersion`
constant from the scaffolds package. -/
structure CmdEnv where
  cmdResult : List String → Except String Unit
  controllerRuntimeVersion : String

/-- The `go get` invocation pinning controller-runtime. -/
def goGetCmd (v : String) : List String :=
  ["go", "get", "sigs.k8s.io/controller-runtime@" ++ v]

/-- The `go mod tidy` invocation. -/
def goModTidyCmd : List String := ["go", "mod", "tidy"]

/-- The `make` invocation. -/
def makeCmd : List String := ["make"]

/-- The informational message printed when dependency fetching is off. -/
def skipFetchMsg : String := "Skipping fetching dependencies."

/-- The success hint printed after all commands succeed. -/
def nextStepMsg (commandName : String) : String :=
  "Next: define a resource with:\n$ " ++ commandName ++ " create api\n"

/-- The outcome of a `PostScaffold` call: the external commands invoked, in
order; the messages printed by `PostScaffold` itself; and the returned
error, if any. -/
structure PostResult where
  trace : List (List String)
  prints : List String
  result : Except String Unit
deriving Repr

/-- `initSubcommand.PostScaffold`: skip everything when dependency fetching
is disabled; otherwise run `go get` (pinning controller-runtime), `go mod
tidy`, and `make` strictly in order, returning the first failure unmodified
and printing the success hint only when all succeed. -/
def PostScaffold (p : InitSubcommand) (env : CmdEnv) : PostResult :=
  if ¬ p.fetchDeps then ⟨[], [skipFetchMsg], Except.ok ()⟩
  else
    let c1 := goGetCmd env.controllerRuntimeVersion
    match env.cmdResult c1 with
    | Except.error e => ⟨[c1], [], Except.error e⟩
    | Except.ok _ =>
      match env.cmdResult goModTidyCmd with
      | Except.error e => ⟨[c1, goModTidyCmd], [], Except.error e⟩
      | Except.ok _ =>
        match env.cmdResult makeCmd with
        | Except.error e => ⟨[c1, goModTidyCmd, makeCmd], [], Except.error e⟩
        | Except.ok _ =>
          ⟨[c1, goModTidyCmd, makeCmd], [nextStepMsg p.commandName], Except.ok ()⟩

/-- All fields of the subcommand state other than the config's project name
and repository coincide between `p` and `q`. -/
def framePreserved (p q : InitSubcommand) : Prop :=
  q.config.Domain = p.config.Domain ∧
  q.config.ComponentConfig = p.config.ComponentConfig ∧
  q.config.Layout = p.config.Layout ∧
  q.commandName = p.commandName ∧
  q.license = p.license ∧
  q.owner = p.owner ∧
  q.fetchDeps = p.fetchDeps ∧
  q.skipGoVersionCheck = p.skipGoVersionCheck

/-! ## Sample values used to exercise the theorems on concrete inputs -/

/-- A sample `initSubcommand` state. -/
def sampleInit (projectName repo : String) (fetchDeps skip : Bool) : InitSubcommand :=
  ⟨⟨projectName, repo, "my.domain", false, "go.kubebuilder.io/v3"⟩,
    "kubebuilder", "apache2", "", fetchDeps, skip⟩

/-- A sample `Validate` environment over a clean working directory. -/
def sampleEnv (gv : Except String Unit) (wd : Except String String)
    (repo : Except String String) : Env :=
  ⟨gv, [("go.mod", Fs.file)], wd, repo⟩

/-- A sample `PostScaffold` environment in which exactly the commands in
`failing` fail. -/
def sampleCmdEnv (failing : List (List String)) : CmdEnv :=
  ⟨fun c => if c ∈ failing then Except.error "exit status 1" else Except.ok (),
    "v0.7.2"⟩

/-! ## Lemmas about the walk -/

theorem walkFn_none (n : String) :
    walkFn n none = if goodNameB n then Except.ok () else Except.error dirNotEmptyMsg := by
  simp only [walkFn, goodNameB]
  by_cases h1 : n = "go.mod" <;> by_cases h2 : hasPrefixGo n "." <;>
    simp [h1, h2]

mutual

theorem walkNode_clean (n : String) (f : Fs) (hn : goodNameB n = true)
    (hf : nodeClean f = true) : walkNode n f = Except.ok () := by
  cases f with
  | file => simp [walkNode, walkFn_none, hn]
  | statErr e => simp [nodeClean] at hf
  | dir es =>
    simp only [nodeClean] at hf
    simp [walkNode, walkFn_none, hn, walkList_clean es hf]

theorem walkList_clean (es : List (String × Fs)) (h : listClean es = true) :
    walkList es = Except.ok () := by
  cases es with
  | nil => simp [walkList]
  | cons e rest =>
    obtain ⟨n, f⟩ := e
    simp only [listClean, Bool.and_eq_true] at h
    obtain ⟨⟨hn, hf⟩, hr⟩ := h
    simp [walkList, walkNode_clean n f hn hf, walkList_clean rest hr]

end

mutual

theorem walkNode_dirty (n : String) (f : Fs) (hne : nodeNoErrs f = true)
    (h : (goodNameB n && nodeClean f) = false) :
    walkNode n f = Except.error dirNotEmptyMsg := by
  cases f with
  | file =>
    simp only [nodeClean, Bool.and_true] at h
    simp [walkNode, walkFn_none, h]
  | statErr e => simp [nodeNoErrs] at hne
  | dir es =>
    by_cases hn : goodNameB n = true
    · simp only [hn, Bool.true_and, nodeClean] at h
      simp only [nodeNoErrs] at hne
      simp [walkNode, walkFn_none, hn, walkList_dirty es hne h]
    · simp only [Bool.not_eq_true] at hn
      simp [walkNode, walkFn_none, hn]

theorem walkList_dirty (es : List (String × Fs)) (hne : listNoErrs es = true)
    (h : listClean es = false) : walkList es = Except.error dirNotEmptyMsg := by
  cases es with
  | nil => simp [listClean] at h
  | cons e rest =>
    obtain ⟨n, f⟩ := e
    simp only [listNoErrs, Bool.and_eq_true] at hne
    obtain ⟨hnef, hner⟩ := hne
    by_cases hd : (goodNameB n && nodeClean f) = true
    · simp only [listClean, hd, Bool.true_and] at h
      simp only [Bool.and_eq_true] at hd
      simp [walkList, walkNode_clean n f hd.1 hd.2, walkList_dirty rest hner h]
    · simp only [Bool.not_eq_true] at hd
      simp [walkList, walkNode_dirty n f hnef hd]

end

/-- **C1.** For a working directory whose traversal raises no filesystem
errors, `checkDir` returns ok exactly when every recursively visited entry
is named `go.mod` or dot-prefixed, and returns the non-empty-directory
error as soon as any visited entry (at any depth) violates that policy. -/
theorem checkDir_name_policy (entries : List (String × Fs))
    (hne : listNoErrs entries = true) :
    checkDir entries =
      if listClean entries then Except.ok () else Except.error dirNotEmptyMsg := by
  by_cases h : listClean entries = true
  · simp [checkDir, walkNode, walkFn_none, h, walkList_clean entries h,
      (by decide : goodNameB "." = true)]
  · simp only [Bool.not_eq_true] at h
    simp [checkDir, walkNode, walkFn_none, h, walkList_dirty entries hne h,
      (by decide : goodNameB "." = true)]

/-- Witness for C1: a directory holding `go.mod` and a `.git` directory
(itself containing only dotfiles) passes, while one holding `main.go`
fails with the non-empty-directory error. -/
theorem checkDir_name_policy_witness :
    checkDir [(".git", Fs.dir [(".keep", Fs.file)]), ("go.mod", Fs.file)] = Except.ok () ∧
    checkDir [(".gitignore", Fs.file), ("main.go", Fs.file)] =
      Except.error dirNotEmptyMsg := by
  constructor
  · have h := checkDir_name_policy
      [(".git", Fs.dir [(".keep", Fs.file)]), ("go.mod", Fs.file)] (by decide)
    simpa using h
  · have h := checkDir_name_policy
      [(".gitignore", Fs.file), ("main.go", Fs.file)] (by decide)
    simpa using h

/-- **C10.** A traversal error (an entry whose `lstat` fails, handed to the
walk callback) is propagated as `checkDir`'s result verbatim — whatever its
message and wherever the entry sits — rather than being converted to the
non-empty-directory error. -/
theorem checkDir_propagates_walk_errors (name msg : String)
    (rest : List (String × Fs)) :
    checkDir ((name, Fs.statErr msg) :: rest) = Except.error msg ∧
    checkDir [(".hidden", Fs.dir [(name, Fs.statErr msg)])] = Except.error msg := by
  constructor
  · simp [checkDir, walkNode, walkList, walkFn_none,
      (by decide : goodNameB "." = true)]
  · simp [checkDir, walkNode, walkList, walkFn_none,
      (by decide : goodNameB "." = true), (by decide : goodNameB ".hidden" = true)]

/-! ## `PostScaffold` claims -/

/-- **C2.** With dependency fetching enabled, the three external commands
run strictly in this order: `go get` pinning controller-runtime, `go mod
tidy`, `make`; the first failure stops the pipeline (later commands are
never invoked, the success hint is not printed) and is returned unmodified;
only full success prints the hint. -/
theorem postScaffold_sequencing (p : InitSubcommand) (env : CmdEnv)
    (h : p.fetchDeps = true) :
    (∀ e, env.cmdResult (goGetCmd env.controllerRuntimeVersion) = Except.error e →
      PostScaffold p env =
        ⟨[goGetCmd env.controllerRuntimeVersion], [], Except.error e⟩) ∧
    (env.cmdResult (goGetCmd env.controllerRuntimeVersion) = Except.ok () →
      ∀ e, env.cmdResult goModTidyCmd = Except.error e →
      PostScaffold p env =
        ⟨[goGetCmd env.controllerRuntimeVersion, goModTidyCmd], [], Except.error e⟩) ∧
    (env.cmdResult (goGetCmd env.controllerRuntimeVersion) = Except.ok () →
      env.cmdResult goModTidyCmd = Except.ok () →
      ∀ e, env.cmdResult makeCmd = Except.error e →
      PostScaffold p env =
        ⟨[goGetCmd env.controllerRuntimeVersion, goModTidyCmd, makeCmd], [],
          Except.error e⟩) ∧
    (env.cmdResult (goGetCmd env.controllerRuntimeVersion) = Except.ok () →
      env.cmdResult goModTidyCmd = Except.ok () →
      env.cmdResult makeCmd = Except.ok () →
      PostScaffold p env =
        ⟨[goGetCmd env.controllerRuntimeVersion, goModTidyCmd, makeCmd],
          [nextStepMsg p.commandName], Except.ok ()⟩) := by
  refine ⟨fun e h1 => ?_, fun h1 e h2 => ?_, fun h1 h2 e h3 => ?_, fun h1 h2 h3 => ?_⟩ <;>
    simp [PostScaffold, h, h1]
  · simp [h2]
  · simp [h2, h3]
  · simp [h2, h3]

/-- Witness for C2: with `go mod tidy` failing, `PostScaffold` invokes
exactly `go get` then `go mod tidy`, prints nothing, and returns the tidy
failure unmodified. -/
theorem postScaffold_sequencing_witness :
    PostScaffold (sampleInit "myapp" "example.com/r" true false)
        (sampleCmdEnv [goModTidyCmd]) =
      ⟨[goGetCmd "v0.7.2", goModTidyCmd], [], Except.error "exit status 1"⟩ :=
  (postScaffold_sequencing (sampleInit "myapp" "example.com/r" true false)
    (sampleCmdEnv [goModTidyCmd]) rfl).2.1 (by simp [sampleCmdEnv, goGetCmd, goModTidyCmd])
    "exit status 1" (by simp [sampleCmdEnv])

/-- **C6.** With dependency fetching disabled, `PostScaffold` invokes no
external command, prints the informational skip message, and returns ok. -/
theorem postScaffold_skip (p : InitSubcommand) (env : CmdEnv)
    (h : p.fetchDeps = false) :
    PostScaffold p env = ⟨[], [skipFetchMsg], Except.ok ()⟩ := by
  simp [PostScaffold, h]

/-- Witness for C6 at a concrete subcommand and environment. -/
theorem postScaffold_skip_witness :
    PostScaffold (sampleInit "myapp" "example.com/r" false false) (sampleCmdEnv []) =
      ⟨[], [skipFetchMsg], Except.ok ()⟩ :=
  postScaffold_skip (sampleInit "myapp" "example.com/r" false false)
    (sampleCmdEnv []) rfl

/-! ## Lemmas about the stages of `Validate` -/

theorem validateT_eq_afterVersion (p : InitSubcommand) (env : Env)
    (hver : p.skipGoVersionCheck = true ∨ env.goVersionCheck = Except.ok ()) :
    ValidateT p env =
      afterVersion p env (if p.skipGoVersionCheck then [] else [VStep.versionCheck]) := by
  rcases hver with hs | hv
  · simp [ValidateT, hs]
  · by_cases hs : p.skipGoVersionCheck <;> simp [ValidateT, hs, hv]

theorem afterVersion_ok (p : InitSubcommand) (env : Env) (t : List VStep)
    (hdir : checkDir env.cwd = Except.ok ()) :
    afterVersion p env t = afterDir p env (t ++ [VStep.dirCheck]) := by
  simp [afterVersion, hdir]

theorem afterVersion_err (p : InitSubcommand) (env : Env) (t : List VStep) (e : String)
    (hdir : checkDir env.cwd = Except.error e) :
    afterVersion p env t = ⟨p, t ++ [VStep.dirCheck], Except.error e⟩ := by
  simp [afterVersion, hdir]

theorem afterDir_resolved (p : InitSubcommand) (env : Env) (t : List VStep) (d : String)
    (hpn : p.config.ProjectName = "") (hwd : env.getwd = Except.ok d) :
    afterDir p env t =
      checkLabel
        { p with config := { p.config with ProjectName := stringsToLower (filepathBase d) } }
        env (t ++ [VStep.nameCheck]) := by
  simp [afterDir, hpn, hwd]

theorem afterDir_getwd_err (p : InitSubcommand) (env : Env) (t : List VStep) (e : String)
    (hpn : p.config.ProjectName = "") (hwd : env.getwd = Except.error e) :
    afterDir p env t =
      ⟨p, t ++ [VStep.nameCheck],
        Except.error ("error getting current directory: " ++ e)⟩ := by
  simp [afterDir, hpn, hwd]

theorem afterDir_supplied (p : InitSubcommand) (env : Env) (t : List VStep)
    (hpn : p.config.ProjectName ≠ "") :
    afterDir p env t = checkLabel p env (t ++ [VStep.nameCheck]) := by
  simp [afterDir, hpn]

theorem checkLabel_valid (p : InitSubcommand) (env : Env) (t : List VStep)
    (hdns : dns1123LabelOk p.config.ProjectName = true) :
    checkLabel p env t = afterName p env t := by
  simp [checkLabel, isDNS1123Label, hdns]

theorem checkLabel_invalid (p : InitSubcommand) (env : Env) (t : List VStep)
    (hdns : dns1123LabelOk p.config.ProjectName = false) :
    checkLabel p env t =
      ⟨p, t, Except.error ("project name (" ++ p.config.ProjectName ++
        ") is invalid: " ++ dns1123ErrMsg)⟩ := by
  simp [checkLabel, isDNS1123Label, hdns]

theorem afterName_keep (p : InitSubcommand) (env : Env) (t : List VStep)
    (hr : p.config.Repo ≠ "") :
    afterName p env t = ⟨p, t, Except.ok ()⟩ := by
  simp [afterName, hr]

theorem afterName_detect_ok (p : InitSubcommand) (env : Env) (t : List VStep) (r : String)
    (hr : p.config.Repo = "") (hfr : env.findCurrentRepo = Except.ok r) :
    afterName p env t =
      ⟨{ p with config := { p.config with Repo := r } }, t ++ [VStep.repoDetect],
        Except.ok ()⟩ := by
  simp [afterName, hr, hfr]

theorem afterName_detect_err (p : InitSubcommand) (env : Env) (t : List VStep) (e : String)
    (hr : p.config.Repo = "") (hfr : env.findCurrentRepo = Except.error e) :
    afterName p env t =
      ⟨p, t ++ [VStep.repoDetect],
        Except.error ("error finding current repository: " ++ e)⟩ := by
  simp [afterName, hr, hfr]

theorem afterName_projectName (p : InitSubcommand) (env : Env) (t : List VStep) :
    (afterName p env t).state.config.ProjectName = p.config.ProjectName := by
  simp only [afterName]
  (repeat' split) <;> simp

theorem dns1123LabelOk_ne_empty (s : String) (h : dns1123LabelOk s = true) : s ≠ "" := by
  intro hs
  subst hs
  exact absurd h (by decide)

theorem validateT_ok_dns (p : InitSubcommand) (env : Env)
    (h : (ValidateT p env).result = Except.ok ()) :
    dns1123LabelOk (ValidateT p env).state.config.ProjectName = true := by
  by_cases hs : p.skipGoVersionCheck <;>
    simp only [ValidateT, afterVersion, afterDir, checkLabel, afterName,
      isDNS1123Label, hs] at h ⊢ <;>
    (repeat' split at h) <;> (repeat' split) <;> simp_all

theorem validateT_ok_repo (p : InitSubcommand) (env : Env)
    (h : (ValidateT p env).result = Except.ok ()) :
    (ValidateT p env).state.config.Repo ≠ "" ∨
      env.findCurrentRepo = Except.ok (ValidateT p env).state.config.Repo := by
  by_cases hs : p.skipGoVersionCheck <;>
    simp only [ValidateT, afterVersion, afterDir, checkLabel, afterName,
      isDNS1123Label, hs] at h ⊢ <;>
    (repeat' split at h) <;> (repeat' split) <;> simp_all

theorem validateT_state_flags (p : InitSubcommand) (env : Env) :
    (ValidateT p env).state.skipGoVersionCheck = p.skipGoVersionCheck := by
  by_cases hs : p.skipGoVersionCheck <;>
    simp only [ValidateT, afterVersion, afterDir, checkLabel, afterName, hs] <;>
    (repeat' split) <;> simp_all

theorem validateT_ok_dir (p : InitSubcommand) (env : Env)
    (h : (ValidateT p env).result = Except.ok ()) :
    checkDir env.cwd = Except.ok () := by
  by_cases hs : p.skipGoVersionCheck <;>
    simp only [ValidateT, afterVersion, afterDir, checkLabel, afterName, hs] at h <;>
    (repeat' split at h) <;> simp_all

theorem validateT_ok_version (p : InitSubcommand) (env : Env)
    (h : (ValidateT p env).result = Except.ok ()) :
    p.skipGoVersionCheck = true ∨ env.goVersionCheck = Except.ok () := by
  by_cases hs : p.skipGoVersionCheck
  · exact Or.inl hs
  · right
    simp only [ValidateT, hs] at h
    cases hgv : env.goVersionCheck with
    | ok u => rfl
    | error e => rw [hgv] at h; simp at h

theorem validate_stable (q : InitSubcommand) (env : Env)
    (hver : q.skipGoVersionCheck = true ∨ env.goVersionCheck = Except.ok ())
    (hdir : checkDir env.cwd = Except.ok ())
    (hpn : q.config.ProjectName ≠ "")
    (hdns : dns1123LabelOk q.config.ProjectName = true)
    (hrepo : q.config.Repo ≠ "" ∨ env.findCurrentRepo = Except.ok q.config.Repo) :
    Validate q env = (q, Except.ok ()) := by
  rw [Validate, validateT_eq_afterVersion q env hver, afterVersion_ok _ _ _ hdir,
    afterDir_supplied _ _ _ hpn, checkLabel_valid _ _ _ hdns]
  by_cases hq : q.config.Repo = ""
  · rcases hrepo with hr | hr
    · exact absurd hq hr
    · rw [afterName_detect_ok _ _ _ _ hq hr]
  · rw [afterName_keep _ _ _ hq]

/-! ## `Validate` claims -/

/-- **C3.** `Validate` performs its checks in the fixed order
version → directory → project name → repository (the trace is always a
sublist of that order); the version check runs first exactly when not
skipped; a version-check failure stops everything (the trace is just the
version check and the error is returned); and the repository-detection
heuristic is reached only with a project name that passed validation. -/
theorem validate_check_order (p : InitSubcommand) (env : Env) :
    ((ValidateT p env).trace).Sublist
      [VStep.versionCheck, VStep.dirCheck, VStep.nameCheck, VStep.repoDetect] ∧
    (p.skipGoVersionCheck = true → VStep.versionCheck ∉ (ValidateT p env).trace) ∧
    (p.skipGoVersionCheck = false →
      (ValidateT p env).trace.head? = some VStep.versionCheck) ∧
    (p.skipGoVersionCheck = false → ∀ e, env.goVersionCheck = Except.error e →
      (ValidateT p env).trace = [VStep.versionCheck] ∧
      (ValidateT p env).result = Except.error e) ∧
    (VStep.repoDetect ∈ (ValidateT p env).trace →
      dns1123LabelOk (ValidateT p env).state.config.ProjectName = true) := by
  refine ⟨?_, ?_, ?_, ?_, ?_⟩
  · by_cases hs : p.skipGoVersionCheck <;>
      simp only [ValidateT, afterVersion, afterDir, checkLabel, afterName, hs] <;>
      (repeat' split) <;> simp_all
  · intro hs
    simp only [ValidateT, afterVersion, afterDir, checkLabel, afterName, hs]
    (repeat' split) <;> simp_all
  · intro hs
    simp only [ValidateT, afterVersion, afterDir, checkLabel, afterName, hs]
    (repeat' split) <;> simp_all
  · intro hs e he
    simp [ValidateT, hs, he]
  · by_cases hs : p.skipGoVersionCheck <;>
      simp only [ValidateT, afterVersion, afterDir, checkLabel, afterName,
        isDNS1123Label, hs] <;>
      (repeat' split) <;> simp_all

/-- Witness for C3: with the version check enabled and failing, `Validate`
performs only the version check and returns its error. -/
theorem validate_check_order_witness :
    (ValidateT (sampleInit "" "" true false)
        (sampleEnv (Except.error "go version go1.10 is incompatible")
          (Except.ok "/home/user/app") (Except.ok "example.com/m"))).trace =
      [VStep.versionCheck] ∧
    (ValidateT (sampleInit "" "" true false)
        (sampleEnv (Except.error "go version go1.10 is incompatible")
          (Except.ok "/home/user/app") (Except.ok "example.com/m"))).result =
      Except.error "go version go1.10 is incompatible" :=
  (validate_check_order (sampleInit "" "" true false)
    (sampleEnv (Except.error "go version go1.10 is incompatible")
      (Except.ok "/home/user/app") (Except.ok "example.com/m"))).2.2.2.1
    rfl "go version go1.10 is incompatible" rfl

/-- **C4.** When the configured project name is empty, `Validate` sets it to
the lowercase base name of the working directory, and that resolved value
(like a user-supplied one) is then checked against the DNS-1123-label
predicate; a predicate failure yields an error whose message carries the
offending project-name value. -/
theorem validate_project_name (p : InitSubcommand) (env : Env)
    (hver : p.skipGoVersionCheck = true ∨ env.goVersionCheck = Except.ok ())
    (hdir : checkDir env.cwd = Except.ok ()) :
    (∀ d, p.config.ProjectName = "" → env.getwd = Except.ok d →
      (ValidateT p env).state.config.ProjectName = stringsToLower (filepathBase d) ∧
      (dns1123LabelOk (stringsToLower (filepathBase d)) = false →
        (ValidateT p env).result =
          Except.error ("project name (" ++ stringsToLower (filepathBase d) ++
            ") is invalid: " ++ dns1123ErrMsg))) ∧
    (p.config.ProjectName ≠ "" → dns1123LabelOk p.config.ProjectName = false →
      (ValidateT p env).result =
        Except.error ("project name (" ++ p.config.ProjectName ++
          ") is invalid: " ++ dns1123ErrMsg)) := by
  rw [validateT_eq_afterVersion p env hver, afterVersion_ok _ _ _ hdir]
  constructor
  · intro d hpn hwd
    simp only [afterDir, checkLabel, afterName, isDNS1123Label, hpn, hwd]
    (repeat' split) <;> simp_all <;> intro hbad <;> simp_all
  · intro hpn hdns
    simp only [afterDir, checkLabel, afterName, isDNS1123Label, hpn, hdns]
    (repeat' split) <;> simp_all

/-- Witness for C4: a working directory `/home/user/MyApp` resolves the
empty project name to `myapp`; a supplied name `My_App` fails validation
with an error message carrying that name. -/
theorem validate_project_name_witness :
    (ValidateT (sampleInit "" "example.com/m" true true)
        (sampleEnv (Except.ok ()) (Except.ok "/home/user/MyApp")
          (Except.ok "example.com/m"))).state.config.ProjectName = "myapp" ∧
    (ValidateT (sampleInit "My_App" "example.com/m" true true)
        (sampleEnv (Except.ok ()) (Except.ok "/home/user/MyApp")
          (Except.ok "example.com/m"))).result =
      Except.error ("project name (My_App) is invalid: " ++ dns1123ErrMsg) := by
  constructor
  · have h := (validate_project_name (sampleInit "" "example.com/m" true true)
      (sampleEnv (Except.ok ()) (Except.ok "/home/user/MyApp") (Except.ok "example.com/m"))
      (Or.inl rfl)
      (by simp +decide [sampleEnv, checkDir, walkNode, walkList, walkFn])).1
      "/home/user/MyApp" rfl rfl
    exact h.1.trans (by decide)
  · have h := (validate_project_name (sampleInit "My_App" "example.com/m" true true)
      (sampleEnv (Except.ok ()) (Except.ok "/home/user/MyApp") (Except.ok "example.com/m"))
      (Or.inl rfl)
      (by simp +decide [sampleEnv, checkDir, walkNode, walkList, walkFn])).2
      (by simp [sampleInit]) (by decide)
    simpa using h

/-- **C5.** A non-empty configured repository is used verbatim — `Validate`
neither validates nor overwrites it and never invokes the detection
heuristic; only an empty repository triggers the heuristic, whose failure
is returned wrapped and whose success value becomes the repository. -/
theorem validate_repository (p : InitSubcommand) (env : Env)
    (hver : p.skipGoVersionCheck = true ∨ env.goVersionCheck = Except.ok ())
    (hdir : checkDir env.cwd = Except.ok ())
    (hpn : p.config.ProjectName ≠ "")
    (hdns : dns1123LabelOk p.config.ProjectName = true) :
    (p.config.Repo ≠ "" →
      (ValidateT p env).state.config.Repo = p.config.Repo ∧
      (ValidateT p env).result = Except.ok () ∧
      VStep.repoDetect ∉ (ValidateT p env).trace) ∧
    (p.config.Repo = "" →
      (∀ e, env.findCurrentRepo = Except.error e →
        (ValidateT p env).result =
          Except.error ("error finding current repository: " ++ e)) ∧
      (∀ r, env.findCurrentRepo = Except.ok r →
        (ValidateT p env).state.config.Repo = r ∧
        (ValidateT p env).result = Except.ok ())) := by
  rw [validateT_eq_afterVersion p env hver, afterVersion_ok _ _ _ hdir,
    afterDir_supplied _ _ _ hpn, checkLabel_valid _ _ _ hdns]
  constructor
  · intro hr
    rw [afterName_keep _ _ _ hr]
    refine ⟨rfl, rfl, ?_⟩
    by_cases hs : p.skipGoVersionCheck <;> simp [hs]
  · intro hr
    constructor
    · intro e hfr
      rw [afterName_detect_err _ _ _ e hr hfr]
    · intro r hfr
      rw [afterName_detect_ok _ _ _ r hr hfr]
      exact ⟨rfl, rfl⟩

/-- Witness for C5: a user-supplied repository survives `Validate`
unchanged, with no detection step in the trace, even though the detection
heuristic would fail in this environment. -/
theorem validate_repository_witness :
    (ValidateT (sampleInit "myapp" "example.com/custom" true true)
        (sampleEnv (Except.ok ()) (Except.ok "/w")
          (Except.error "unable to get module path"))).state.config.Repo =
      "example.com/custom" ∧
    (ValidateT (sampleInit "myapp" "example.com/custom" true true)
        (sampleEnv (Except.ok ()) (Except.ok "/w")
          (Except.error "unable to get module path"))).result = Except.ok () ∧
    VStep.repoDetect ∉
      (ValidateT (sampleInit "myapp" "example.com/custom" true true)
        (sampleEnv (Except.ok ()) (Except.ok "/w")
          (Except.error "unable to get module path"))).trace :=
  (validate_repository (sampleInit "myapp" "example.com/custom" true true)
    (sampleEnv (Except.ok ()) (Except.ok "/w") (Except.error "unable to get module path"))
    (Or.inl rfl)
    (by simp +decide [sampleEnv, checkDir, walkNode, walkList, walkFn])
    (by decide) (by decide)).1 (by decide)

/-- **C8.** `Validate` is not atomic on failure: when the project name is
derived from the working directory and passes validation but repository
detection then fails, the returned result is the wrapped detection error
while the configuration already carries the (non-empty) resolved project
name. -/
theorem validate_partial_mutation (p : InitSubcommand) (env : Env) (d e : String)
    (hver : p.skipGoVersionCheck = true ∨ env.goVersionCheck = Except.ok ())
    (hdir : checkDir env.cwd = Except.ok ())
    (hpn : p.config.ProjectName = "")
    (hwd : env.getwd = Except.ok d)
    (hdns : dns1123LabelOk (stringsToLower (filepathBase d)) = true)
    (hrepo : p.config.Repo = "")
    (hfr : env.findCurrentRepo = Except.error e) :
    (ValidateT p env).result =
      Except.error ("error finding current repository: " ++ e) ∧
    (ValidateT p env).state.config.ProjectName = stringsToLower (filepathBase d) ∧
    (ValidateT p env).state.config.ProjectName ≠ "" := by
  rw [validateT_eq_afterVersion p env hver, afterVersion_ok _ _ _ hdir,
    afterDir_resolved _ _ _ d hpn hwd]
  refine ⟨?_, ?_, ?_⟩ <;>
    simp [checkLabel, isDNS1123Label, afterName, hdns, hrepo, hfr,
      dns1123LabelOk_ne_empty _ hdns]

/-- Witness for C8: with the working directory `/home/user/MyApp` and a
failing repository detection, `Validate` errors yet leaves the project name
set to `myapp`. -/
theorem validate_partial_mutation_witness :
    (ValidateT (sampleInit "" "" true true)
        (sampleEnv (Except.ok ()) (Except.ok "/home/user/MyApp")
          (Except.error "unable to get module path"))).result =
      Except.error "error finding current repository: unable to get module path" ∧
    (ValidateT (sampleInit "" "" true true)
        (sampleEnv (Except.ok ()) (Except.ok "/home/user/MyApp")
          (Except.error "unable to get module path"))).state.config.ProjectName =
      "myapp" := by
  have h := validate_partial_mutation (sampleInit "" "" true true)
    (sampleEnv (Except.ok ()) (Except.ok "/home/user/MyApp")
      (Except.error "unable to get module path"))
    "/home/user/MyApp" "unable to get module path" (Or.inl rfl)
    (by simp +decide [sampleEnv, checkDir, walkNode, walkList, walkFn])
    rfl rfl (by decide) rfl rfl
  exact ⟨h.1.trans (congrArg Except.error (by decide)), h.2.1.trans (by decide)⟩

/-- **C9.** `Validate` writes at most the project-name and repository
fields of the configuration, and each only when it was empty on entry; the
domain, component-config, and layout fields and all subcommand options are
untouched. -/
theorem validate_frame (p : InitSubcommand) (env : Env) :
    framePreserved p (ValidateT p env).state ∧
    ((ValidateT p env).state.config.ProjectName = p.config.ProjectName ∨
      p.config.ProjectName = "") ∧
    ((ValidateT p env).state.config.Repo = p.config.Repo ∨ p.config.Repo = "") := by
  by_cases hs : p.skipGoVersionCheck <;>
    simp only [ValidateT, afterVersion, afterDir, checkLabel, afterName, hs] <;>
    (repeat' split) <;> simp_all [framePreserved]

/-- **C7.** `Validate` is idempotent: a first call that succeeded (in an
unchanged environment) makes a second call succeed with the very same,
unmodified state. -/
theorem validate_idempotent (p p' : InitSubcommand) (env : Env)
    (h : Validate p env = (p', Except.ok ())) :
    Validate p' env = (p', Except.ok ()) := by
  have hst : (ValidateT p env).state = p' := congrArg Prod.fst h
  have hres : (ValidateT p env).result = Except.ok () := congrArg Prod.snd h
  have hver := validateT_ok_version p env hres
  have hdir := validateT_ok_dir p env hres
  have hdns := validateT_ok_dns p env hres
  have hrepo := validateT_ok_repo p env hres
  have hskip := validateT_state_flags p env
  rw [hst] at hdns hrepo hskip
  apply validate_stable p' env
  · rcases hver with hv | hv
    · exact Or.inl (hskip.trans hv)
    · exact Or.inr hv
  · exact hdir
  · exact dns1123LabelOk_ne_empty _ hdns
  · exact hdns
  · exact hrepo

/-- Witness for C7: re-validating the state produced by a successful first
`Validate` run returns it unchanged with ok. -/
theorem validate_idempotent_witness :
    Validate (sampleInit "myapp" "example.com/m" true true)
        (sampleEnv (Except.ok ()) (Except.ok "/home/user/MyApp")
          (Except.ok "example.com/m")) =
      (sampleInit "myapp" "example.com/m" true true, Except.ok ()) :=
  validate_idempotent (sampleInit "" "" true true)
    (sampleInit "myapp" "example.com/m" true true)
    (sampleEnv (Except.ok ()) (Except.ok "/home/user/MyApp")
      (Except.ok "example.com/m"))
    (by simp +decide [Validate, ValidateT, afterVersion, afterDir, checkLabel,
      afterName, isDNS1123Label, checkDir, walkNode, walkList, walkFn,
      sampleInit, sampleEnv, stringsToLower, filepathBase])

end KubebuilderV3Init
